import Mathlib

/-!
Shallow embedding of the Task Lifecycle & Billing Ledger core of the
captcha-solver service, translated from the Python sources under
`src/captcha_solver`.  Monetary `Decimal` values (stored as exact
fixed-point `Numeric(12,4)` columns) become `ℤ` in minor units — an exact
embedding for every operation the code performs on money (addition,
negation, `abs`, comparisons); request timestamps (`time.time()` floats)
become `ℚ`.  Database rows become lists of records, and each SQL statement
becomes the corresponding pure list operation.  A service call that commits returns `.ok` carrying the
committed database; a call that raises after a rollback returns `.error`,
and the caller's observable database is the unchanged input (nothing of the
unit of work was committed).
-/

namespace CaptchaSolver

/-- `TaskStatus` from `domain/value_objects/enums.py`. -/
inductive TaskStatus
  | pending
  | processing
  | ready
  | failed
deriving DecidableEq, Repr

/-- `TaskStatus.is_terminal`: READY and FAILED are terminal. -/
def TaskStatus.isTerminal (s : TaskStatus) : Bool :=
  s == .ready || s == .failed

/-- `TaskStatus.can_transition_to`: the legal-transition table of
`enums.py` (PENDING → {PROCESSING, FAILED}, PROCESSING → {READY, FAILED},
READY and FAILED have no outgoing transitions). -/
def TaskStatus.canTransitionTo (s target : TaskStatus) : Bool :=
  match s with
  | .pending => target == .processing || target == .failed
  | .processing => target == .ready || target == .failed
  | .ready => false
  | .failed => false

/-- `TransactionType` from `enums.py`. -/
inductive TransactionType
  | deposit
  | deduct
  | refund
  | bonus
deriving DecidableEq, Repr

/-- `Transaction` entity (`domain/entities/transaction.py`).  The fresh
`uuid4` identity is passed in by the caller; `description` and
`created_at` are irrelevant to the verified claims and omitted. -/
structure Transaction where
  id : Nat
  user_id : Nat
  type : TransactionType
  amount : ℤ
  balance_after : ℤ
  reference_id : String
  reference_type : String
deriving DecidableEq, Repr

/-- `Transaction.create_deduct`: amount is stored as `-abs(amount)`,
reference kind is the literal string `"TASK"`. -/
def Transaction.create_deduct (id user_id : Nat) (amount balance_after : ℤ)
    (task_id : String) : Transaction :=
  { id := id
    user_id := user_id
    type := .deduct
    amount := -|amount|
    balance_after := balance_after
    reference_id := task_id
    reference_type := "TASK" }

/-- `Transaction.create_refund`: amount is stored as `abs(amount)`,
reference kind is the literal string `"TASK_REFUND"`. -/
def Transaction.create_refund (id user_id : Nat) (amount balance_after : ℤ)
    (task_id : String) : Transaction :=
  { id := id
    user_id := user_id
    type := .refund
    amount := |amount|
    balance_after := balance_after
    reference_id := task_id
    reference_type := "TASK_REFUND" }

/-- `Transaction.create_deposit`: amount is stored as `abs(amount)`,
reference kind is the literal string `"PAYMENT"`. -/
def Transaction.create_deposit (id user_id : Nat) (amount balance_after : ℤ)
    (payment_id : String) : Transaction :=
  { id := id
    user_id := user_id
    type := .deposit
    amount := |amount|
    balance_after := balance_after
    reference_id := payment_id
    reference_type := "PAYMENT" }

/-- The billing-relevant part of the `User` entity / `users` table row
(`domain/entities/user.py`, `infrastructure/database/models.py`).
`id` is the primary key. -/
structure User where
  id : Nat
  balance : ℤ
deriving DecidableEq, Repr

/-- The billing-relevant part of the `Task` entity / `tasks` table row.
`id` is the primary key (rendered as the string the code obtains from
`str(task.id)` when it is used as a ledger reference). -/
structure Task where
  id : String
  user_id : Nat
  status : TaskStatus
  token : Option String
  cost : ℤ
  error_code : Option String
  error_desc : Option String
deriving DecidableEq, Repr

/-- `Task.create`: new tasks start PENDING with zero cost and no result. -/
def Task.create (id : String) (user_id : Nat) : Task :=
  { id := id
    user_id := user_id
    status := .pending
    token := none
    cost := 0
    error_code := none
    error_desc := none }

/-- The database: the three tables touched by the lifecycle/billing core. -/
structure DB where
  users : List User
  tasks : List Task
  transactions : List Transaction
deriving DecidableEq, Repr

/-- Whether the ledger already holds a row with the given idempotency key
(the `uq_transactions_ref` unique constraint on
`(reference_id, reference_type)` in `models.py`). -/
def hasRef (txs : List Transaction) (reference_id reference_type : String) : Bool :=
  txs.any fun t => t.reference_id == reference_id && t.reference_type == reference_type

/-- `UserRepository.update_balance_atomic`: one conditional UPDATE.
For a negative amount the row must additionally satisfy
`balance >= abs(amount)`; `None` (here `none`) means no row matched
(account missing or insufficient funds).  Returns the updated balance of
the matched row together with the updated table. -/
def UserRepository.balanceRowMatch (user_id : Nat) (amount : ℤ) (u : User) : Bool :=
  if amount < 0 then u.id == user_id && decide (|amount| ≤ u.balance)
  else u.id == user_id

/-- The UPDATE of `update_balance_atomic`, applied to the rows matched by
`balanceRowMatch` and RETURNING the (first) matched row's new balance. -/
def UserRepository.update_balance_atomic (db : DB) (user_id : Nat) (amount : ℤ) :
    Option (ℤ × DB) :=
  match db.users.find? (UserRepository.balanceRowMatch user_id amount) with
  | none => none
  | some u =>
      some (u.balance + amount,
        { db with
            users := db.users.map fun v =>
              if UserRepository.balanceRowMatch user_id amount v then
                { v with balance := v.balance + amount }
              else v })

/-- `TransactionRepository.save`: plain INSERT; the flush raises
`IntegrityError` (modelled as `none`) when the `(reference_id,
reference_type)` unique constraint is violated. -/
def TransactionRepository.save (db : DB) (tx : Transaction) : Option DB :=
  if hasRef db.transactions tx.reference_id tx.reference_type then none
  else some { db with transactions := tx :: db.transactions }

/-- `TransactionRepository.save_idempotent`: same INSERT, but the
`IntegrityError` is caught, the session rolled back, and `False`
returned instead. -/
def TransactionRepository.save_idempotent (db : DB) (tx : Transaction) : Bool × DB :=
  match TransactionRepository.save db tx with
  | some db1 => (true, db1)
  | none => (false, db)

/-- Helper mirroring `if v is not None: values[k] = v` for optional columns. -/
def setOpt {α : Type} (new old : Option α) : Option α :=
  match new with
  | some v => some v
  | none => old

/-- `TaskRepository.update_status`: an UPDATE whose WHERE clause matches on
the task id only — it does NOT consult the current status or
`can_transition_to`.  Returns whether any row matched (`rowcount > 0`). -/
def TaskRepository.update_status (db : DB) (task_id : String) (status : TaskStatus)
    (token : Option String) (cost : Option ℤ)
    (error_code : Option String) (error_desc : Option String) : Bool × DB :=
  (db.tasks.any fun t => t.id == task_id,
    { db with
        tasks := db.tasks.map fun t =>
          if t.id == task_id then
            { t with
                status := status
                token := setOpt token t.token
                cost := cost.getD t.cost
                error_code := setOpt error_code t.error_code
                error_desc := setOpt error_desc t.error_desc }
          else t })

/-- The domain errors raised by the embedded services
(`domain/exceptions.py`, plus SQLAlchemy's `IntegrityError` and the bare
`ValueError` used for a missing user inside billing). -/
inductive ServiceError
  | entityNotFound
  | insufficientBalance
  | integrityError
  | refundAlreadyProcessed
  | userNotFound
deriving DecidableEq, Repr

/-- `BillingService.deduct_balance`: atomic balance decrement by
`-abs(amount)` (raising `InsufficientBalanceError` when no row matches),
then a plain `save` of the DEDUCT transaction (whose flush raises
`IntegrityError` on a duplicate `(task_id, "TASK")` reference).  Nothing is
committed here (`auto_commit=False` path used by `complete_task`); a raise
leaves the caller's committed state untouched. -/
def BillingService.deduct_balance (db : DB) (user_id : Nat) (amount : ℤ)
    (task_id : String) (tx_fresh_id : Nat) : Except ServiceError (ℤ × DB) :=
  match UserRepository.update_balance_atomic db user_id (-|amount|) with
  | none => .error .insufficientBalance
  | some (new_balance, db1) =>
      match TransactionRepository.save db1
        (Transaction.create_deduct tx_fresh_id user_id amount new_balance task_id) with
      | none => .error .integrityError
      | some db2 => .ok (new_balance, db2)

/-- `BillingService.refund`: build the REFUND transaction with
`balance_after = 0` ("temporary value", per the source comment), INSERT it
first via `save_idempotent` (duplicate ⇒ rollback and
`RefundAlreadyProcessedError`, balance untouched), and only if it was
inserted credit the balance; a missing user rolls the insert back
(`ValueError`, modelled `.error .userNotFound`).  On success the whole unit
commits.  The persisted `balance_after` of the refund row is never
updated from its temporary `0`. -/
def BillingService.refund (db : DB) (user_id : Nat) (amount : ℤ)
    (task_id : String) (tx_fresh_id : Nat) : Except ServiceError (ℤ × DB) :=
  match TransactionRepository.save_idempotent db
      (Transaction.create_refund tx_fresh_id user_id amount 0 task_id) with
  | (false, _) => .error .refundAlreadyProcessed
  | (true, db1) =>
      match UserRepository.update_balance_atomic db1 user_id |amount| with
      | none => .error .userNotFound
      | some (new_balance, db2) => .ok (new_balance, db2)

/-- `BillingService.deposit`: atomic balance increment by `abs(amount)`
(`ValueError` when the user is missing), then INSERT of the DEPOSIT
transaction keyed by the payment reference, then commit. -/
def BillingService.deposit (db : DB) (user_id : Nat) (amount : ℤ)
    (payment_id : String) (tx_fresh_id : Nat) : Except ServiceError (ℤ × DB) :=
  match UserRepository.update_balance_atomic db user_id |amount| with
  | none => .error .userNotFound
  | some (new_balance, db1) =>
      match TransactionRepository.save db1
        (Transaction.create_deposit tx_fresh_id user_id amount new_balance payment_id) with
      | none => .error .integrityError
      | some db2 => .ok (new_balance, db2)

/-- `TaskService.create_task`: check the user exists and can afford the
per-task price (`User.can_afford`, i.e. `balance >= price`), then persist a
new PENDING task and commit.  The price comes from
`settings.price_per_task` and is passed as a parameter here. -/
def TaskService.create_task (db : DB) (user_id : Nat) (task_fresh_id : String)
    (price : ℤ) : Except ServiceError (Task × DB) :=
  match db.users.find? (fun u => u.id == user_id) with
  | none => .error .entityNotFound
  | some u =>
      if u.balance < price then .error .insufficientBalance
      else
        .ok (Task.create task_fresh_id user_id,
          { db with tasks := Task.create task_fresh_id user_id :: db.tasks })

/-- `TaskService.start_processing`: unconditional `update_status` to
PROCESSING, then commit; returns whether a row matched. -/
def TaskService.start_processing (db : DB) (task_id : String) : Bool × DB :=
  TaskRepository.update_status db task_id .processing none none none none

/-- `TaskService.complete_task`: fetch the task, deduct
`settings.price_per_task` (parameter `price`) via
`BillingService.deduct_balance`, set status READY with the token and cost
in the same unit of work, then commit; on any exception the whole unit is
rolled back and the exception re-raised (the `.error` result, leaving the
caller's committed database the unchanged input).  No check of the current
status is performed before the UPDATE. -/
def TaskService.complete_task (db : DB) (task_id : String) (token : String)
    (price : ℤ) (tx_fresh_id : Nat) : Except ServiceError (Task × DB) :=
  match db.tasks.find? (fun t => t.id == task_id) with
  | none => .error .entityNotFound
  | some task =>
      match BillingService.deduct_balance db task.user_id price task_id tx_fresh_id with
      | .error e => .error e
      | .ok (_, db1) =>
          match ((TaskRepository.update_status db1 task_id .ready
              (some token) (some price) none none).2).tasks.find?
              (fun t => t.id == task_id) with
          | none => .error .entityNotFound
          | some t => .ok (t, (TaskRepository.update_status db1 task_id .ready
              (some token) (some price) none none).2)

/-- `TaskService.fail_task`: unconditional `update_status` to FAILED with
the error fields, commit, re-fetch.  No ledger effect and no check of the
current status. -/
def TaskService.fail_task (db : DB) (task_id : String) (error_code : String)
    (error_desc : Option String) : Except ServiceError (Task × DB) :=
  match ((TaskRepository.update_status db task_id .failed
      none none (some error_code) error_desc).2).tasks.find?
      (fun t => t.id == task_id) with
  | none => .error .entityNotFound
  | some t => .ok (t, (TaskRepository.update_status db task_id .failed
      none none (some error_code) error_desc).2)

/-- `TaskService.refund_task`: fetch the task by id and owner
(`EntityNotFoundError` when absent); return `False` when the status is not
READY or the cost is not positive; otherwise call `BillingService.refund`
and return `True` on success — any exception from it (including
`RefundAlreadyProcessedError`) is swallowed and `False` returned, with the
rolled-back (unchanged) database. -/
def TaskService.refund_task (db : DB) (task_id : String) (user_id : Nat)
    (tx_fresh_id : Nat) : Except ServiceError (Bool × DB) :=
  match db.tasks.find? (fun t => t.id == task_id && t.user_id == user_id) with
  | none => .error .entityNotFound
  | some task =>
      if task.status != .ready then .ok (false, db)
      else if task.cost ≤ 0 then .ok (false, db)
      else
        match BillingService.refund db user_id task.cost task_id tx_fresh_id with
        | .ok (_, db1) => .ok (true, db1)
        | .error _ => .ok (false, db)

/-- The body of the `reportIncorrect` route response that the claims are
about: `errorId` and the human-readable status string. -/
structure ReportIncorrectBody where
  errorId : Nat
  status : Option String
deriving DecidableEq, Repr

/-- The `reportIncorrect` route (`api/v1/routes/task.py`), after
rate-limit and authentication succeed: call `refund_task` and report
`"success"` when it returned `True`, `"already_refunded"` otherwise —
both with `errorId = 0`.  `EntityNotFoundError` maps to the
`ERROR_NO_SUCH_CAPTCHA_ID` error response (errorId 12 in
`schemas/task.py`); any other exception to `ERROR_INTERNAL` (errorId 99). -/
def report_incorrect (db : DB) (task_id : String) (user_id : Nat)
    (tx_fresh_id : Nat) : ReportIncorrectBody × DB :=
  match TaskService.refund_task db task_id user_id tx_fresh_id with
  | .ok (success, db1) =>
      ({ errorId := 0, status := some (if success then "success" else "already_refunded") }, db1)
  | .error .entityNotFound => ({ errorId := 12, status := none }, db)
  | .error _ => ({ errorId := 99, status := none }, db)

/-- `RateLimiter.is_allowed` (`infrastructure/cache/rate_limiter.py`):
the atomic Lua script over the per-key sorted set of request timestamps.
`ZREMRANGEBYSCORE key -inf window_start` removes every entry with score
`≤ now - window_seconds` (the Redis range is inclusive); if the surviving
count is below `max_requests` the call is admitted and `now` recorded,
otherwise it is rejected with `retry_after = ceil(oldest + window - now)`
computed from the oldest surviving entry (0 when none survives).
Returns `((is_allowed, remaining, retry_after), new entry set)`. -/
def RateLimiter.is_allowed (entries : List ℚ) (now : ℚ) (max_requests : Nat)
    (window_seconds : ℚ) : (Bool × Int × Int) × List ℚ :=
  let window_start := now - window_seconds
  let surviving := entries.filter fun t => decide (window_start < t)
  if surviving.length < max_requests then
    ((true, (max_requests : Int) - surviving.length - 1, 0), now :: surviving)
  else
    let retry_after : Int :=
      match surviving.min? with
      | none => 0
      | some oldest => ⌈oldest + window_seconds - now⌉
    ((false, 0, retry_after), surviving)

instance {ε α : Type} [DecidableEq ε] [DecidableEq α] : DecidableEq (Except ε α)
  | .error a, .error b =>
      if h : a = b then .isTrue (by rw [h]) else .isFalse (by simp [h])
  | .error _, .ok _ => .isFalse (by simp)
  | .ok _, .error _ => .isFalse (by simp)
  | .ok a, .ok b =>
      if h : a = b then .isTrue (by rw [h]) else .isFalse (by simp [h])

/-- The idempotency invariant enforced by the `uq_transactions_ref`
constraint: the `(reference_id, reference_type)` pair is unique across the
whole ledger. -/
def RefUnique (txs : List Transaction) : Prop :=
  txs.Pairwise fun a b => a.reference_id ≠ b.reference_id ∨ a.reference_type ≠ b.reference_type

/-- Every ledger row carries the reference kind of its creator:
deductions `"TASK"`, refunds `"TASK_REFUND"`, deposits `"PAYMENT"`. -/
def LedgerTyped (txs : List Transaction) : Prop :=
  ∀ tx ∈ txs,
    (tx.type = .deduct → tx.reference_type = "TASK") ∧
    (tx.type = .refund → tx.reference_type = "TASK_REFUND") ∧
    (tx.type = .deposit → tx.reference_type = "PAYMENT")

/-- All account balances are non-negative. -/
def NonnegBalances (db : DB) : Prop :=
  ∀ u ∈ db.users, 0 ≤ u.balance

/-- Number of DEDUCT ledger rows referencing job `j`. -/
def deductCount (db : DB) (j : String) : Nat :=
  (db.transactions.filter fun tx =>
    tx.type == TransactionType.deduct && tx.reference_id == j).length

/-- Number of REFUND ledger rows referencing job `j`. -/
def refundCount (db : DB) (j : String) : Nat :=
  (db.transactions.filter fun tx =>
    tx.type == TransactionType.refund && tx.reference_id == j).length

/-- One atomic committed write of the system: any of the service entry
points that can commit a change.  Error outcomes leave the committed
database unchanged and are therefore not steps.  Interleavings of
concurrent calls are modelled as arbitrary sequences of these atomic
units — the database serializes them: the balance UPDATE is a single
conditional statement and the ledger INSERT is guarded by the
`uq_transactions_ref` unique constraint. -/
inductive Step : DB → DB → Prop
  | register (db : DB) (u : User) :
      u.balance = 0 → Step db { db with users := u :: db.users }
  | create (db : DB) (uid : Nat) (tid : String) (price : ℤ) (t : Task) (db' : DB) :
      TaskService.create_task db uid tid price = .ok (t, db') → Step db db'
  | start (db : DB) (tid : String) :
      Step db (TaskService.start_processing db tid).2
  | complete (db : DB) (tid token : String) (price : ℤ) (txid : Nat) (t : Task) (db' : DB) :
      TaskService.complete_task db tid token price txid = .ok (t, db') → Step db db'
  | fail (db : DB) (tid ec : String) (ed : Option String) (t : Task) (db' : DB) :
      TaskService.fail_task db tid ec ed = .ok (t, db') → Step db db'
  | refund (db : DB) (tid : String) (uid txid : Nat) (b : Bool) (db' : DB) :
      TaskService.refund_task db tid uid txid = .ok (b, db') → Step db db'
  | deposit (db : DB) (uid : Nat) (amount : ℤ) (pid : String) (txid : Nat) (nb : ℤ) (db' : DB) :
      BillingService.deposit db uid amount pid txid = .ok (nb, db') → Step db db'

/-- Databases reachable from a fresh deployment: registered accounts
(balance starts at the column default 0), any task rows, an empty ledger,
then any interleaving of the atomic service operations. -/
inductive Reachable : DB → Prop
  | init (users : List User) (tasks : List Task) :
      (∀ u ∈ users, u.balance = 0) → Reachable ⟨users, tasks, []⟩
  | step (db db' : DB) : Reachable db → Step db db' → Reachable db'

/-- Projection: the task carried by a successful service result. -/
def okTask (r : Except ServiceError (Task × DB)) : Option Task :=
  match r with
  | .ok (t, _) => some t
  | .error _ => none

/-- Projection: the database committed by a successful service result. -/
def okDB (r : Except ServiceError (Task × DB)) : Option DB :=
  match r with
  | .ok (_, d) => some d
  | .error _ => none

/-- Projection: the successful result of a billing operation. -/
def okMoney (r : Except ServiceError (ℤ × DB)) : Option (ℤ × DB) :=
  match r with
  | .ok p => some p
  | .error _ => none

/-- A database with one account and two settled tasks: `"t1"` FAILED
(never billed) and `"t2"` READY (billed 10, DEDUCT row present).  Used to
exercise the state-machine guard of the repository layer. -/
def dbSettled : DB :=
  { users := [{ id := 1, balance := 100 }]
    tasks := [{ id := "t1", user_id := 1, status := .failed, token := none, cost := 0,
                error_code := some "E", error_desc := none },
              { id := "t2", user_id := 1, status := .ready, token := some "tok", cost := 10,
                error_code := none, error_desc := none }]
    transactions := [{ id := 7, user_id := 1, type := .deduct, amount := -10,
                       balance_after := 100, reference_id := "t2",
                       reference_type := "TASK" }] }

/-- A database with one account at balance 90 and one READY task `"t1"`
billed at 10 (its DEDUCT row recorded `balance_after = 90`). -/
def dbBilled : DB :=
  { users := [{ id := 1, balance := 90 }]
    tasks := [{ id := "t1", user_id := 1, status := .ready, token := some "tok", cost := 10,
                error_code := none, error_desc := none }]
    transactions := [{ id := 7, user_id := 1, type := .deduct, amount := -10,
                       balance_after := 90, reference_id := "t1",
                       reference_type := "TASK" }] }

/-- Modelled from the spec (§4.4), for comparison with the code's
`RateLimiter.is_allowed`: identical algorithm except that the pruning
step drops only entries strictly older than `now - windowSeconds`
("drop entries older than `now - windowSeconds`"), retaining an entry
whose timestamp equals the cutoff. -/
def RateLimiter.is_allowed_spec (entries : List ℚ) (now : ℚ) (max_requests : Nat)
    (window_seconds : ℚ) : (Bool × Int × Int) × List ℚ :=
  let window_start := now - window_seconds
  let surviving := entries.filter fun t => decide (window_start ≤ t)
  if surviving.length < max_requests then
    ((true, (max_requests : Int) - surviving.length - 1, 0), now :: surviving)
  else
    let retry_after : Int :=
      match surviving.min? with
      | none => 0
      | some oldest => ⌈oldest + window_seconds - now⌉
    ((false, 0, retry_after), surviving)

/-- Admission decision of one gate check with `max_requests = 3`,
`window_seconds = 60` (the configuration of the spec's scenario). -/
def gateAllowed (entries : List ℚ) (now : ℚ) : Bool :=
  (RateLimiter.is_allowed entries now 3 60).1.1

/-- `retry_after` of one gate check with `max_requests = 3`,
`window_seconds = 60`. -/
def gateRetry (entries : List ℚ) (now : ℚ) : Int :=
  (RateLimiter.is_allowed entries now 3 60).1.2.2

/-- Post-state of one gate check with `max_requests = 3`,
`window_seconds = 60`. -/
def gateNext (entries : List ℚ) (now : ℚ) : List ℚ :=
  (RateLimiter.is_allowed entries now 3 60).2

/-- A fresh deployment: one account at the default balance 0 and one READY
task billed at 10. -/
def dbInit0 : DB :=
  { users := [{ id := 1, balance := 0 }]
    tasks := [{ id := "t1", user_id := 1, status := .ready, token := some "tok", cost := 10,
                error_code := none, error_desc := none }]
    transactions := [] }

/-- `dbInit0` after a successful refund of `"t1"`. -/
def dbRefunded : DB :=
  { users := [{ id := 1, balance := 10 }]
    tasks := [{ id := "t1", user_id := 1, status := .ready, token := some "tok", cost := 10,
                error_code := none, error_desc := none }]
    transactions := [{ id := 5, user_id := 1, type := .refund, amount := 10,
                       balance_after := 0, reference_id := "t1",
                       reference_type := "TASK_REFUND" }] }

/-- One funded account and one PROCESSING task, ledger empty. -/
def dbProcessing : DB :=
  { users := [{ id := 1, balance := 100 }]
    tasks := [{ id := "t1", user_id := 1, status := .processing, token := none, cost := 0,
                error_code := none, error_desc := none }]
    transactions := [] }

/-- One account at balance 5 and one PROCESSING task (the spec's
insufficient-funds scenario: price 10 > balance 5). -/
def dbPoor : DB :=
  { users := [{ id := 1, balance := 5 }]
    tasks := [{ id := "t1", user_id := 1, status := .processing, token := none, cost := 0,
                error_code := none, error_desc := none }]
    transactions := [] }

/-- `dbBilled` after a successful refund of `"t1"`: both the DEDUCT and the
REFUND row for `"t1"` exist. -/
def dbAfterRefund : DB :=
  { users := [{ id := 1, balance := 100 }]
    tasks := [{ id := "t1", user_id := 1, status := .ready, token := some "tok", cost := 10,
                error_code := none, error_desc := none }]
    transactions := [{ id := 8, user_id := 1, type := .refund, amount := 10,
                       balance_after := 0, reference_id := "t1",
                       reference_type := "TASK_REFUND" },
                     { id := 7, user_id := 1, type := .deduct, amount := -10,
                       balance_after := 90, reference_id := "t1",
                       reference_type := "TASK" }] }

/-- One account and one PENDING, never-billed task — a refund of it is
"not eligible" (status not READY, cost 0). -/
def dbNotEligible : DB :=
  { users := [{ id := 1, balance := 100 }]
    tasks := [{ id := "t2", user_id := 1, status := .pending, token := none, cost := 0,
                error_code := none, error_desc := none }]
    transactions := [] }

/-- The database committed by a successful `complete_task` on a database
`db` whose billed account is `uid` and whose post-deduction balance is
`nb`: balances updated by the conditional UPDATE, the task row set READY
with token and cost, and the new DEDUCT row prepended. -/
def completeResultDB (db : DB) (tid token : String) (price : ℤ) (txid : Nat)
    (uid : Nat) (nb : ℤ) : DB :=
  { users := db.users.map fun v =>
      if UserRepository.balanceRowMatch uid (-|price|) v then
        { v with balance := v.balance + -|price| }
      else v
    tasks := db.tasks.map fun t =>
      if t.id == tid then
        { t with
            status := TaskStatus.ready
            token := setOpt (some token) t.token
            cost := (some price).getD t.cost
            error_code := setOpt none t.error_code
            error_desc := setOpt none t.error_desc }
      else t
    transactions := Transaction.create_deduct txid uid price nb tid :: db.transactions }

theorem hasRef_false_iff (txs : List Transaction) (rid rty : String) :
    hasRef txs rid rty = false ↔
      ∀ t ∈ txs, ¬(t.reference_id = rid ∧ t.reference_type = rty) := by
  simp [hasRef, List.any_eq_false, not_and, Bool.and_eq_true]

theorem refUnique_cons {txs : List Transaction} {tx : Transaction}
    (h : RefUnique txs)
    (hno : hasRef txs tx.reference_id tx.reference_type = false) :
    RefUnique (tx :: txs) := by
  refine List.Pairwise.cons ?_ h
  intro b hb
  have := (hasRef_false_iff txs tx.reference_id tx.reference_type).mp hno b hb
  by_contra hc
  push_neg at hc
  exact this ⟨hc.1.symm, hc.2.symm⟩

theorem filter_key_length_le_one (txs : List Transaction) (huniq : RefUnique txs)
    (j k : String) (p : Transaction → Bool)
    (hp : ∀ tx ∈ txs, p tx = true → tx.reference_id = j ∧ tx.reference_type = k) :
    (txs.filter p).length ≤ 1 := by
  induction txs with
  | nil => simp
  | cons a l ih =>
      simp only [RefUnique, List.pairwise_cons] at huniq
      by_cases hpa : p a = true
      · have ha := hp a (by simp) hpa
        have hnone : l.filter p = [] := by
          rw [List.filter_eq_nil_iff]
          intro b hb hpb
          have hbkey := hp b (by simp [hb]) hpb
          rcases huniq.1 b hb with hne | hne
          · exact hne (ha.1.trans hbkey.1.symm)
          · exact hne (ha.2.trans hbkey.2.symm)
        simp [List.filter_cons, hpa, hnone]
      · simp only [List.filter_cons, hpa, if_neg]
        exact ih huniq.2 fun tx htx => hp tx (by simp [htx])

theorem find?_and_of_find? {α : Type} {l : List α} {p r : α → Bool} {u : α}
    (h : l.find? p = some u) (hr : r u = true) :
    l.find? (fun x => p x && r x) = some u := by
  induction l with
  | nil => simp at h
  | cons a l ih =>
      by_cases hpa : p a = true
      · rw [List.find?_cons_of_pos _ hpa] at h
        obtain rfl : a = u := by simpa using h
        rw [List.find?_cons_of_pos]
        simp [hpa, hr]
      · rw [List.find?_cons_of_neg _ (by simp [hpa])] at h
        rw [List.find?_cons_of_neg _ (by simp [Bool.not_eq_true] at hpa ⊢; simp [hpa])]
        exact ih h

theorem find?_map_cond {α : Type} {l : List α} {p q : α → Bool} {f : α → α} {u : α}
    (h : l.find? p = some u) (hq : q u = true)
    (hfp : ∀ x, q x = true → p (f x) = true)
    (hqp : ∀ x, q x = true → p x = true) :
    (l.map fun x => if q x then f x else x).find? p = some (f u) := by
  induction l with
  | nil => simp at h
  | cons a l ih =>
      by_cases hpa : p a = true
      · rw [List.find?_cons_of_pos _ hpa] at h
        obtain rfl : a = u := by simpa using h
        simp only [List.map_cons, hq, if_pos]
        rw [List.find?_cons_of_pos _ (hfp a hq)]
      · rw [List.find?_cons_of_neg _ (by simp [hpa])] at h
        have hqa : q a = false := by
          by_contra hc
          rw [Bool.not_eq_false] at hc
          exact hpa (hqp a hc)
        simp only [List.map_cons, hqa, if_neg, Bool.false_eq_true, not_false_iff]
        rw [List.find?_cons_of_neg _ (by simp [hpa])]
        exact ih h

theorem balanceRowMatch_true {uid : Nat} {amount : ℤ} {u : User}
    (h : UserRepository.balanceRowMatch uid amount u = true) :
    u.id = uid ∧ (amount < 0 → |amount| ≤ u.balance) := by
  unfold UserRepository.balanceRowMatch at h
  split at h
  · rename_i hneg
    simp only [Bool.and_eq_true, beq_iff_eq, decide_eq_true_eq] at h
    exact ⟨h.1, fun _ => h.2⟩
  · rename_i hneg
    simp only [beq_iff_eq] at h
    exact ⟨h, fun hc => absurd hc hneg⟩

theorem update_balance_atomic_some {db : DB} {uid : Nat} {amount nb : ℤ} {db' : DB}
    (h : UserRepository.update_balance_atomic db uid amount = some (nb, db')) :
    ∃ u, db.users.find? (UserRepository.balanceRowMatch uid amount) = some u ∧
      nb = u.balance + amount ∧
      db' = { db with
        users := db.users.map fun v =>
          if UserRepository.balanceRowMatch uid amount v then
            { v with balance := v.balance + amount }
          else v } := by
  unfold UserRepository.update_balance_atomic at h
  split at h
  · exact absurd h (by simp)
  · rename_i u hf
    simp only [Option.some.injEq, Prod.mk.injEq] at h
    exact ⟨u, hf, h.1.symm, h.2.symm⟩

theorem update_balance_atomic_nonneg {db : DB} {uid : Nat} {amount nb : ℤ} {db' : DB}
    (h : UserRepository.update_balance_atomic db uid amount = some (nb, db'))
    (h0 : NonnegBalances db) : NonnegBalances db' ∧ 0 ≤ nb := by
  obtain ⟨u, hf, hnb, hdb⟩ := update_balance_atomic_some h
  have hballed : ∀ v : User, UserRepository.balanceRowMatch uid amount v = true →
      v ∈ db.users → 0 ≤ v.balance + amount := by
    intro v hv hmem
    rcases lt_or_le amount 0 with hneg | hpos
    · have := (balanceRowMatch_true hv).2 hneg
      rw [abs_of_neg hneg] at this
      linarith
    · have := h0 v hmem
      linarith
  constructor
  · intro v hv
    rw [hdb] at hv
    simp only [DB.users, List.mem_map] at hv
    obtain ⟨w, hw, hwv⟩ := hv
    by_cases hm : UserRepository.balanceRowMatch uid amount w = true
    · rw [if_pos hm] at hwv
      rw [← hwv]
      exact hballed w hm hw
    · rw [if_neg hm] at hwv
      rw [← hwv]
      exact h0 w hw
  · rw [hnb]
    exact hballed u (List.find?_some hf) (List.mem_of_find?_eq_some hf)

theorem update_balance_atomic_isSome_of_mem {db : DB} {uid : Nat} {amount : ℤ}
    (hpos : 0 ≤ amount) (hmem : ∃ u ∈ db.users, u.id = uid) :
    (UserRepository.update_balance_atomic db uid amount).isSome = true := by
  obtain ⟨u, hu, hid⟩ := hmem
  unfold UserRepository.update_balance_atomic
  have : db.users.find? (UserRepository.balanceRowMatch uid amount) ≠ none := by
    rw [Ne, List.find?_eq_none]
    push_neg
    refine ⟨u, hu, ?_⟩
    unfold UserRepository.balanceRowMatch
    rw [if_neg (not_lt.mpr hpos)]
    simp [hid]
  cases hf : db.users.find? (UserRepository.balanceRowMatch uid amount) with
  | none => exact absurd hf this
  | some u' => simp

theorem update_balance_atomic_neg_guard {db : DB} {uid : Nat} {amount nb : ℤ} {db' : DB}
    (hneg : amount < 0)
    (h : UserRepository.update_balance_atomic db uid amount = some (nb, db')) :
    ∃ u ∈ db.users, u.id = uid ∧ 0 ≤ u.balance + amount := by
  obtain ⟨u, hf, _, _⟩ := update_balance_atomic_some h
  have hm := balanceRowMatch_true (List.find?_some hf)
  have habs := hm.2 hneg
  rw [abs_of_neg hneg] at habs
  exact ⟨u, List.mem_of_find?_eq_some hf, hm.1, by linarith⟩

theorem save_some {db : DB} {tx : Transaction} {db' : DB}
    (h : TransactionRepository.save db tx = some db') :
    hasRef db.transactions tx.reference_id tx.reference_type = false ∧
    db' = { db with transactions := tx :: db.transactions } := by
  unfold TransactionRepository.save at h
  split at h
  · exact absurd h (by simp)
  · rename_i hc
    rw [Bool.not_eq_true] at hc
    simp only [Option.some.injEq] at h
    exact ⟨hc, h.symm⟩

theorem deduct_balance_ok {db : DB} {uid : Nat} {amount : ℤ} {tid : String}
    {txid : Nat} {nb : ℤ} {db2 : DB}
    (h : BillingService.deduct_balance db uid amount tid txid = .ok (nb, db2)) :
    ∃ db1, UserRepository.update_balance_atomic db uid (-|amount|) = some (nb, db1) ∧
      db1.transactions = db.transactions ∧
      hasRef db.transactions tid "TASK" = false ∧
      db2 = { db1 with
        transactions := Transaction.create_deduct txid uid amount nb tid :: db.transactions } := by
  unfold BillingService.deduct_balance at h
  split at h
  · exact absurd h (by simp)
  · rename_i nb' db1 hup
    split at h
    · exact absurd h (by simp)
    · rename_i db2' hsave
      simp only [Except.ok.injEq, Prod.mk.injEq] at h
      obtain ⟨rfl, rfl⟩ := h
      obtain ⟨u, _, _, hdb1⟩ := update_balance_atomic_some hup
      have htx : db1.transactions = db.transactions := by rw [hdb1]
      obtain ⟨hno, hdb2⟩ := save_some hsave
      simp only [Transaction.create_deduct] at hno ⊢
      rw [htx] at hno hdb2
      exact ⟨db1, hup, htx, hno, hdb2⟩

theorem billing_refund_ok {db : DB} {uid : Nat} {amount : ℤ} {tid : String}
    {txid : Nat} {nb : ℤ} {db2 : DB}
    (h : BillingService.refund db uid amount tid txid = .ok (nb, db2)) :
    hasRef db.transactions tid "TASK_REFUND" = false ∧
    UserRepository.update_balance_atomic
      { db with transactions := Transaction.create_refund txid uid amount 0 tid :: db.transactions }
      uid |amount| = some (nb, db2) := by
  unfold BillingService.refund at h
  split at h
  · exact absurd h (by simp)
  · rename_i db1 hsi
    unfold TransactionRepository.save_idempotent at hsi
    split at hsi
    · rename_i db1' hsave
      simp only [Prod.mk.injEq] at hsi
      obtain ⟨-, rfl⟩ := hsi
      obtain ⟨hno, rfl⟩ := save_some hsave
      simp only [Transaction.create_refund] at hno
      split at h
      · exact absurd h (by simp)
      · rename_i nb' db2' hup
        simp only [Except.ok.injEq, Prod.mk.injEq] at h
        obtain ⟨rfl, rfl⟩ := h
        exact ⟨hno, hup⟩
    · simp at hsi

theorem deposit_ok {db : DB} {uid : Nat} {amount : ℤ} {pid : String}
    {txid : Nat} {nb : ℤ} {db2 : DB}
    (h : BillingService.deposit db uid amount pid txid = .ok (nb, db2)) :
    ∃ db1, UserRepository.update_balance_atomic db uid |amount| = some (nb, db1) ∧
      db1.transactions = db.transactions ∧
      hasRef db.transactions pid "PAYMENT" = false ∧
      db2 = { db1 with
        transactions := Transaction.create_deposit txid uid amount nb pid :: db.transactions } := by
  unfold BillingService.deposit at h
  split at h
  · exact absurd h (by simp)
  · rename_i nb' db1 hup
    split at h
    · exact absurd h (by simp)
    · rename_i db2' hsave
      simp only [Except.ok.injEq, Prod.mk.injEq] at h
      obtain ⟨rfl, rfl⟩ := h
      obtain ⟨u, _, _, hdb1⟩ := update_balance_atomic_some hup
      have htx : db1.transactions = db.transactions := by rw [hdb1]
      obtain ⟨hno, hdb2⟩ := save_some hsave
      simp only [Transaction.create_deposit] at hno ⊢
      rw [htx] at hno hdb2
      exact ⟨db1, hup, htx, hno, hdb2⟩

theorem complete_task_ok {db : DB} {tid token : String} {price : ℤ} {txid : Nat}
    {t : Task} {db' : DB}
    (h : TaskService.complete_task db tid token price txid = .ok (t, db')) :
    ∃ task nb db2, db.tasks.find? (fun x => x.id == tid) = some task ∧
      BillingService.deduct_balance db task.user_id price tid txid = .ok (nb, db2) ∧
      db' = (TaskRepository.update_status db2 tid .ready (some token) (some price)
        none none).2 := by
  unfold TaskService.complete_task at h
  split at h
  · exact absurd h (by simp)
  · rename_i task hfind
    split at h
    · exact absurd h (by simp)
    · rename_i nb db2 hded
      split at h
      · exact absurd h (by simp)
      · rename_i t' hre
        simp only [Except.ok.injEq, Prod.mk.injEq] at h
        obtain ⟨rfl, rfl⟩ := h
        exact ⟨task, nb, db2, hfind, hded, rfl⟩

theorem fail_task_ok {db : DB} {tid ec : String} {ed : Option String}
    {t : Task} {db' : DB}
    (h : TaskService.fail_task db tid ec ed = .ok (t, db')) :
    db' = (TaskRepository.update_status db tid .failed none none (some ec) ed).2 := by
  unfold TaskService.fail_task at h
  split at h
  · exact absurd h (by simp)
  · rename_i t' hre
    simp only [Except.ok.injEq, Prod.mk.injEq] at h
    exact h.2.symm

theorem create_task_ok {db : DB} {uid : Nat} {tid : String} {price : ℤ}
    {t : Task} {db' : DB}
    (h : TaskService.create_task db uid tid price = .ok (t, db')) :
    db' = { db with tasks := Task.create tid uid :: db.tasks } := by
  unfold TaskService.create_task at h
  split at h
  · exact absurd h (by simp)
  · rename_i u hu
    split at h
    · exact absurd h (by simp)
    · simp only [Except.ok.injEq, Prod.mk.injEq] at h
      exact h.2.symm

theorem refund_task_ok {db : DB} {tid : String} {uid txid : Nat} {b : Bool} {db' : DB}
    (h : TaskService.refund_task db tid uid txid = .ok (b, db')) :
    (b = false ∧ db' = db) ∨
    (b = true ∧ ∃ task nb,
      db.tasks.find? (fun x => x.id == tid && x.user_id == uid) = some task ∧
      task.status = .ready ∧ 0 < task.cost ∧
      BillingService.refund db uid task.cost tid txid = .ok (nb, db')) := by
  unfold TaskService.refund_task at h
  split at h
  · exact absurd h (by simp)
  · rename_i task hfind
    split at h
    · simp only [Except.ok.injEq, Prod.mk.injEq] at h
      exact Or.inl ⟨h.1.symm, h.2.symm⟩
    · rename_i hready
      simp only [bne_iff_ne, ne_eq, not_not] at hready
      split at h
      · simp only [Except.ok.injEq, Prod.mk.injEq] at h
        exact Or.inl ⟨h.1.symm, h.2.symm⟩
      · rename_i hcost
        split at h
        · rename_i nb1 db1 href
          simp only [Except.ok.injEq, Prod.mk.injEq] at h
          obtain ⟨rfl, rfl⟩ := h
          exact Or.inr ⟨rfl, task, nb1, hfind, hready, lt_of_not_le hcost, href⟩
        · simp only [Except.ok.injEq, Prod.mk.injEq] at h
          exact Or.inl ⟨h.1.symm, h.2.symm⟩

theorem ledgerTyped_cons {txs : List Transaction} {tx : Transaction}
    (h : LedgerTyped txs)
    (h1 : (tx.type = .deduct → tx.reference_type = "TASK") ∧
      (tx.type = .refund → tx.reference_type = "TASK_REFUND") ∧
      (tx.type = .deposit → tx.reference_type = "PAYMENT")) :
    LedgerTyped (tx :: txs) := by
  intro t htr
  rcases List.mem_cons.mp htr with rfl | hmem
  · exact h1
  · exact h t hmem

theorem step_ledger {db db' : DB} (h : Step db db')
    (hu : RefUnique db.transactions) (ht : LedgerTyped db.transactions) :
    RefUnique db'.transactions ∧ LedgerTyped db'.transactions := by
  cases h with
  | register u h0 => exact ⟨hu, ht⟩
  | create uid tid price t db' hok =>
      rw [create_task_ok hok]
      exact ⟨hu, ht⟩
  | start tid => exact ⟨hu, ht⟩
  | complete tid token price txid t db' hok =>
      obtain ⟨task, nb, db2, hfind, hded, hdb'⟩ := complete_task_ok hok
      obtain ⟨db1, hup, htx1, hno, hdb2⟩ := deduct_balance_ok hded
      subst hdb'
      rw [hdb2]
      constructor
      · exact refUnique_cons hu (by simpa [Transaction.create_deduct] using hno)
      · exact ledgerTyped_cons ht (by simp [Transaction.create_deduct])
  | fail tid ec ed t db' hok =>
      rw [fail_task_ok hok]
      exact ⟨hu, ht⟩
  | refund tid uid txid b db' hok =>
      rcases refund_task_ok hok with ⟨-, rfl⟩ | ⟨-, task, nb, hfind, -, -, href⟩
      · exact ⟨hu, ht⟩
      · obtain ⟨hno, hup⟩ := billing_refund_ok href
        obtain ⟨u, hf, hnb, hdb⟩ := update_balance_atomic_some hup
        rw [hdb]
        constructor
        · exact refUnique_cons hu (by simpa [Transaction.create_refund] using hno)
        · exact ledgerTyped_cons ht (by simp [Transaction.create_refund])
  | deposit uid amount pid txid nb db' hok =>
      obtain ⟨db1, hup, htx1, hno, hdb2⟩ := deposit_ok hok
      rw [hdb2]
      constructor
      · exact refUnique_cons hu (by simpa [Transaction.create_deposit] using hno)
      · exact ledgerTyped_cons ht (by simp [Transaction.create_deposit])

theorem step_nonneg {db db' : DB} (h : Step db db') (h0 : NonnegBalances db) :
    NonnegBalances db' := by
  cases h with
  | register u hz =>
      intro v hv
      rcases List.mem_cons.mp hv with rfl | hmem
      · rw [hz]
      · exact h0 v hmem
  | create uid tid price t db' hok =>
      rw [create_task_ok hok]
      exact h0
  | start tid => exact h0
  | complete tid token price txid t db' hok =>
      obtain ⟨task, nb, db2, hfind, hded, hdb'⟩ := complete_task_ok hok
      obtain ⟨db1, hup, htx1, hno, hdb2⟩ := deduct_balance_ok hded
      subst hdb'
      have h1 := (update_balance_atomic_nonneg hup h0).1
      rw [hdb2]
      exact h1
  | fail tid ec ed t db' hok =>
      rw [fail_task_ok hok]
      exact h0
  | refund tid uid txid b db' hok =>
      rcases refund_task_ok hok with ⟨-, rfl⟩ | ⟨-, task, nb, hfind, -, -, href⟩
      · exact h0
      · obtain ⟨hno, hup⟩ := billing_refund_ok href
        exact (update_balance_atomic_nonneg hup h0).1
  | deposit uid amount pid txid nb db' hok =>
      obtain ⟨db1, hup, htx1, hno, hdb2⟩ := deposit_ok hok
      rw [hdb2]
      exact (update_balance_atomic_nonneg hup h0).1

theorem reachable_ledger {db : DB} (h : Reachable db) :
    RefUnique db.transactions ∧ LedgerTyped db.transactions := by
  induction h with
  | init users tasks h0 => exact ⟨List.Pairwise.nil, by intro tx htx; simp at htx⟩
  | step db db' hr hs ih => exact step_ledger hs ih.1 ih.2

theorem reachable_nonneg {db : DB} (h : Reachable db) : NonnegBalances db := by
  induction h with
  | init users tasks h0 =>
      intro u hu
      rw [h0 u hu]
  | step db db' hr hs ih => exact step_nonneg hs ih

/-- C2: In every reachable database the `(reference_id, reference_type)`
pair is unique across the whole ledger, every DEDUCT row carries kind
`"TASK"`, every REFUND row kind `"TASK_REFUND"` (the spec's `"JOB"` /
`"JOB_REFUND"` under its Job↦Task renaming), and consequently every job
has at most one DEDUCT and at most one REFUND row, independently —
under any interleaving of the atomic service operations, which is how N
concurrent `complete`/refund calls serialize at the database. -/
theorem claim_C2 (db : DB) (h : Reachable db) :
    RefUnique db.transactions ∧
    LedgerTyped db.transactions ∧
    ∀ j : String, deductCount db j ≤ 1 ∧ refundCount db j ≤ 1 := by
  obtain ⟨hu, ht⟩ := reachable_ledger h
  refine ⟨hu, ht, fun j => ⟨?_, ?_⟩⟩
  · unfold deductCount
    refine filter_key_length_le_one _ hu j "TASK" _ fun tx htx hp => ?_
    simp only [Bool.and_eq_true, beq_iff_eq] at hp
    exact ⟨hp.2, (ht tx htx).1 hp.1⟩
  · unfold refundCount
    refine filter_key_length_le_one _ hu j "TASK_REFUND" _ fun tx htx hp => ?_
    simp only [Bool.and_eq_true, beq_iff_eq] at hp
    exact ⟨hp.2, (ht tx htx).2.1 hp.1⟩

/-- Witness for C2 at the reachable database obtained from `dbInit0` by
one successful refund of task `"t1"`. -/
theorem claim_C2_witness :
    RefUnique dbRefunded.transactions ∧
    LedgerTyped dbRefunded.transactions ∧
    ∀ j : String, deductCount dbRefunded j ≤ 1 ∧ refundCount dbRefunded j ≤ 1 :=
  claim_C2 dbRefunded
    (Reachable.step dbInit0 dbRefunded
      (Reachable.init dbInit0.users dbInit0.tasks (by decide))
      (Step.refund dbInit0 "t1" 1 5 true dbRefunded (by decide)))

/-- C6: `update_balance_atomic` (a) applies a negative amount only to an
account row with `balance + amount ≥ 0`, (b) always succeeds for a
non-negative amount when the account exists, (c) maps a database with
non-negative balances to one with non-negative balances and returns a
non-negative new balance, and (d) therefore every reachable database has
`balance ≥ 0` for all accounts (balances start at the column default 0).
The read-check-write is one conditional UPDATE, so interleavings are
sequences of these atomic steps. -/
theorem claim_C6 :
    (∀ (db : DB) (uid : Nat) (amount nb : ℤ) (db' : DB),
      amount < 0 →
      UserRepository.update_balance_atomic db uid amount = some (nb, db') →
      ∃ u ∈ db.users, u.id = uid ∧ 0 ≤ u.balance + amount) ∧
    (∀ (db : DB) (uid : Nat) (amount : ℤ),
      0 ≤ amount → (∃ u ∈ db.users, u.id = uid) →
      (UserRepository.update_balance_atomic db uid amount).isSome = true) ∧
    (∀ (db : DB) (uid : Nat) (amount nb : ℤ) (db' : DB),
      UserRepository.update_balance_atomic db uid amount = some (nb, db') →
      NonnegBalances db → NonnegBalances db' ∧ 0 ≤ nb) ∧
    (∀ db : DB, Reachable db → NonnegBalances db) :=
  ⟨fun _ _ _ _ _ hneg h => update_balance_atomic_neg_guard hneg h,
   fun _ _ _ hpos hmem => update_balance_atomic_isSome_of_mem hpos hmem,
   fun _ _ _ _ _ h h0 => update_balance_atomic_nonneg h h0,
   fun _ h => reachable_nonneg h⟩

/-- Witness for C6: each part applied at a concrete account. -/
theorem claim_C6_witness :
    (∃ u ∈ (DB.mk [⟨1, 10⟩] [] []).users, u.id = 1 ∧ 0 ≤ u.balance + (-10)) ∧
    (UserRepository.update_balance_atomic (DB.mk [⟨1, 0⟩] [] []) 1 5).isSome = true ∧
    (NonnegBalances (DB.mk [⟨1, 5⟩] [] []) ∧ (0 : ℤ) ≤ 5) ∧
    NonnegBalances (DB.mk [⟨1, 0⟩] [] []) :=
  ⟨claim_C6.1 (DB.mk [⟨1, 10⟩] [] []) 1 (-10) 0 (DB.mk [⟨1, 0⟩] [] [])
      (by decide) (by decide),
   claim_C6.2.1 (DB.mk [⟨1, 0⟩] [] []) 1 5 (by decide) ⟨⟨1, 0⟩, by simp, rfl⟩,
   claim_C6.2.2.1 (DB.mk [⟨1, 0⟩] [] []) 1 5 5 (DB.mk [⟨1, 5⟩] [] [])
      (by decide) (by intro u hu; simp at hu; subst hu; decide),
   claim_C6.2.2.2 (DB.mk [⟨1, 0⟩] [] []) (Reachable.init [⟨1, 0⟩] [] (by decide))⟩

/-- C10: transaction amounts are sign-normalized regardless of the sign
the caller passes — `create_deduct` stores `-abs(amount)` (non-positive),
`create_refund` and `create_deposit` store `abs(amount)` (non-negative),
and each constructor fixes the transaction kind, so the kind alone
determines the direction of the recorded balance change. -/
theorem claim_C10 (txid uid : Nat) (amount ba : ℤ) (rid : String) :
    (Transaction.create_deduct txid uid amount ba rid).amount = -|amount| ∧
    (Transaction.create_deduct txid uid amount ba rid).amount ≤ 0 ∧
    (Transaction.create_deduct txid uid amount ba rid).type = .deduct ∧
    (Transaction.create_refund txid uid amount ba rid).amount = |amount| ∧
    0 ≤ (Transaction.create_refund txid uid amount ba rid).amount ∧
    (Transaction.create_refund txid uid amount ba rid).type = .refund ∧
    (Transaction.create_deposit txid uid amount ba rid).amount = |amount| ∧
    0 ≤ (Transaction.create_deposit txid uid amount ba rid).amount ∧
    (Transaction.create_deposit txid uid amount ba rid).type = .deposit := by
  refine ⟨rfl, ?_, rfl, rfl, ?_, rfl, rfl, ?_, rfl⟩
  · exact neg_nonpos.mpr (abs_nonneg amount)
  · exact abs_nonneg amount
  · exact abs_nonneg amount

/-- C1 (code bug): the repository's `update_status` UPDATE never consults
`can_transition_to`, so transitions the domain layer forbids succeed at
the service layer.  Concretely on `dbSettled`: `complete` of the FAILED
job `"t1"` succeeds — it flips the job to READY and even appends a DEDUCT
row (billing a failed job) — `fail` of the READY job `"t2"` succeeds and
overwrites the settled record, and `start_processing` of `"t2"` succeeds,
although `canTransitionTo` rejects all three transitions. -/
theorem claim_C1_code_behavior :
    TaskStatus.canTransitionTo .failed .ready = false ∧
    TaskStatus.canTransitionTo .ready .failed = false ∧
    TaskStatus.canTransitionTo .ready .processing = false ∧
    (okTask (TaskService.complete_task dbSettled "t1" "newtok" 10 8)).map Task.status
      = some .ready ∧
    ((okDB (TaskService.complete_task dbSettled "t1" "newtok" 10 8)).map
      fun d => d.transactions.length) = some 2 ∧
    (okTask (TaskService.fail_task dbSettled "t2" "ERR" none)).map Task.status
      = some .failed ∧
    (TaskService.start_processing dbSettled "t2").1 = true ∧
    ((TaskService.start_processing dbSettled "t2").2.tasks.find?
      fun t => t.id == "t2").map Task.status = some .processing := by decide

/-- C9 (code bug): a refund commits its REFUND row with the temporary
`balance_after = 0` it was created with (the code's "updated later" never
happens), while the account's actual balance after the refund is 100; a
DEDUCT row, in contrast, does record the true post-transaction balance. -/
theorem claim_C9_code_behavior :
    ((okMoney (BillingService.refund dbBilled 1 10 "t1" 8)).map
      fun p => (p.1, p.2.transactions.head?.map
        fun tx => (tx.type, tx.amount, tx.balance_after)))
      = some (100, some (.refund, 10, 0)) ∧
    ((0 : ℤ) = 100) = False ∧
    ((okMoney (BillingService.deduct_balance (DB.mk [⟨1, 100⟩] [] []) 1 10 "t9" 3)).map
      fun p => (p.1, p.2.transactions.head?.map fun tx => tx.balance_after))
      = some (90, some 90) := by
  refine ⟨by decide, by simp, by decide⟩

theorem balanceRowMatch_neg {uid : Nat} {amt : ℤ} (h : amt < 0) :
    UserRepository.balanceRowMatch uid amt
      = fun u => u.id == uid && decide (|amt| ≤ u.balance) := by
  funext u
  unfold UserRepository.balanceRowMatch
  rw [if_pos h]

theorem balanceRowMatch_of_nonneg {uid : Nat} {amt : ℤ} (h : 0 ≤ amt) :
    UserRepository.balanceRowMatch uid amt = fun u => u.id == uid := by
  funext u
  unfold UserRepository.balanceRowMatch
  rw [if_neg (not_lt.mpr h)]

theorem find?_and_eq_none {α : Type} {l : List α} {p r : α → Bool} {u : α}
    (hfind : l.find? p = some u) (hr : r u = false)
    (huniq : ∀ x ∈ l, p x = true → x = u) :
    l.find? (fun x => p x && r x) = none := by
  rw [List.find?_eq_none]
  intro x hx h
  simp only [Bool.and_eq_true] at h
  obtain rfl := huniq x hx h.1
  rw [hr] at h
  exact Bool.false_ne_true h.2

/-- C4: when the conditional balance UPDATE matches no row (insufficient
funds), `deduct_balance` raises `InsufficientBalanceError` before any
ledger append, `complete_task` rolls the unit back and re-raises, so the
observable outcome is the bare `InsufficientBalance` error: the job is not
transitioned to READY (the committed database is the unchanged input, the
job still PROCESSING), the balance is untouched and no transaction row is
appended. -/
theorem claim_C4 (db : DB) (tid token : String) (price : ℤ) (txid : Nat)
    (task : Task) (u : User)
    (hfind : db.tasks.find? (fun x => x.id == tid) = some task)
    (hstat : task.status = .processing)
    (hnodup : (db.users.map User.id).Nodup)
    (hu : db.users.find? (fun v => v.id == task.user_id) = some u)
    (hnn : 0 ≤ u.balance) (hlt : u.balance < price) :
    TaskService.complete_task db tid token price txid
      = .error .insufficientBalance := by
  have hppos : 0 < price := lt_of_le_of_lt hnn hlt
  have habs : |price| = price := abs_of_pos hppos
  have hneg : (-|price| : ℤ) < 0 := by
    rw [habs]
    exact neg_neg_of_pos hppos
  have hpu : (u.id == task.user_id) = true := by simpa using List.find?_some hu
  have hnone : db.users.find?
      (UserRepository.balanceRowMatch task.user_id (-|price|)) = none := by
    rw [balanceRowMatch_neg hneg]
    refine find?_and_eq_none hu ?_ ?_
    · rw [decide_eq_false_iff_not, abs_neg, abs_abs, habs]
      exact not_le.mpr hlt
    · intro x hx hpx
      refine List.inj_on_of_nodup_map hnodup hx (List.mem_of_find?_eq_some hu) ?_
      rw [beq_iff_eq] at hpx hpu
      rw [hpx, hpu]
  simp only [TaskService.complete_task, hfind, BillingService.deduct_balance,
    UserRepository.update_balance_atomic, hnone]

/-- Witness for C4: the spec's scenario — balance 5, price 10 — on
`dbPoor`: the `complete` attempt surfaces `InsufficientBalance` and no
state is committed. -/
theorem claim_C4_witness :
    TaskService.complete_task dbPoor "t1" "tok" 10 0
      = .error .insufficientBalance :=
  claim_C4 dbPoor "t1" "tok" 10 0
    { id := "t1", user_id := 1, status := .processing, token := none, cost := 0,
      error_code := none, error_desc := none }
    { id := 1, balance := 5 }
    (by decide) rfl (by decide) (by decide) (by decide) (by decide)

/-- C5: completing a PROCESSING job with sufficient funds commits, as one
unit, the balance deduction by `price`, exactly one new DEDUCT row of
amount `-price` referencing the job, and the job transition to READY with
the token recorded and `cost = price`. -/
theorem claim_C5 (db : DB) (tid token : String) (price : ℤ) (txid : Nat)
    (task : Task) (u : User)
    (hfind : db.tasks.find? (fun x => x.id == tid) = some task)
    (hstat : task.status = .processing)
    (hu : db.users.find? (fun v => v.id == task.user_id) = some u)
    (hppos : 0 < price) (hbal : price ≤ u.balance)
    (hnoref : hasRef db.transactions tid "TASK" = false) :
    ∃ db' : DB,
      TaskService.complete_task db tid token price txid
        = .ok ({ task with status := .ready, token := some token, cost := price }, db') ∧
      db'.users.find? (fun v => v.id == task.user_id)
        = some { u with balance := u.balance - price } ∧
      db'.transactions
        = Transaction.create_deduct txid task.user_id price (u.balance - price) tid
            :: db.transactions ∧
      (Transaction.create_deduct txid task.user_id price (u.balance - price) tid).amount
        = -price := by
  have habs : |price| = price := abs_of_pos hppos
  have hneg : (-|price| : ℤ) < 0 := by
    rw [habs]
    exact neg_neg_of_pos hppos
  have habs2 : |(-|price| : ℤ)| = price := by rw [abs_neg, abs_abs, habs]
  have hpu : (u.id == task.user_id) = true := by simpa using List.find?_some hu
  have hfindu : db.users.find?
      (UserRepository.balanceRowMatch task.user_id (-|price|)) = some u := by
    rw [balanceRowMatch_neg hneg]
    refine find?_and_of_find? hu ?_
    rw [decide_eq_true_eq, habs2]
    exact hbal
  have hbalEq : u.balance + -|price| = u.balance - price := by
    rw [habs, sub_eq_add_neg]
  have hup : UserRepository.update_balance_atomic db task.user_id (-|price|)
      = some (u.balance - price,
        { db with users := db.users.map fun v =>
            if UserRepository.balanceRowMatch task.user_id (-|price|) v then
              { v with balance := v.balance + -|price| }
            else v }) := by
    simp only [UserRepository.update_balance_atomic, hfindu, hbalEq]
  have htfind : (db.tasks.map fun t =>
      if t.id == tid then
        { t with status := TaskStatus.ready, token := some token, cost := price }
      else t).find? (fun t => t.id == tid)
      = some { task with status := .ready, token := some token, cost := price } := by
    exact find?_map_cond hfind (by simpa using List.find?_some hfind)
      (fun x hx => hx) (fun x hx => hx)
  refine ⟨completeResultDB db tid token price txid task.user_id (u.balance - price),
    ?_, ?_, ?_, ?_⟩
  · simp only [completeResultDB, TaskService.complete_task, hfind,
      BillingService.deduct_balance, hup, TransactionRepository.save,
      Transaction.create_deduct, hnoref, Bool.false_eq_true, if_false,
      TaskRepository.update_status, htfind, setOpt, Option.getD]
  · show (completeResultDB db tid token price txid task.user_id
      (u.balance - price)).users.find? (fun v => v.id == task.user_id)
      = some { u with balance := u.balance - price }
    refine (find?_map_cond hu
      ((by rw [balanceRowMatch_neg hneg, Bool.and_eq_true, decide_eq_true_eq, habs2]
           exact ⟨hpu, hbal⟩) :
        UserRepository.balanceRowMatch task.user_id (-|price|) u = true)
      (fun x hx => by
        have := (balanceRowMatch_true hx).1
        simpa using this)
      (fun x hx => by
        have := (balanceRowMatch_true hx).1
        simpa using this)).trans ?_
    rw [hbalEq]
  · rfl
  · rw [show (Transaction.create_deduct txid task.user_id price (u.balance - price)
      tid).amount = -|price| from rfl, habs]

/-- Witness for C5: the spec's scenario — balance 100, price 10 — on
`dbProcessing`: balance 90, one DEDUCT(-10) row, state READY. -/
theorem claim_C5_witness :
    ∃ db' : DB,
      TaskService.complete_task dbProcessing "t1" "tok" 10 7
        = .ok (({ id := "t1", user_id := 1, status := .ready, token := some "tok",
                  cost := 10, error_code := none, error_desc := none } : Task), db') ∧
      db'.users.find? (fun v => v.id == 1) = some { id := 1, balance := 90 } ∧
      db'.transactions
        = Transaction.create_deduct 7 1 10 90 "t1" :: dbProcessing.transactions ∧
      (Transaction.create_deduct 7 1 10 90 "t1").amount = -10 :=
  claim_C5 dbProcessing "t1" "tok" 10 7
    { id := "t1", user_id := 1, status := .processing, token := none, cost := 0,
      error_code := none, error_desc := none }
    { id := 1, balance := 100 }
    (by decide) rfl (by decide) (by decide) (by decide) (by decide)

/-- C3: (first conjunct) when the ledger already holds the REFUND row for
the job, `refund_task` is rejected at the idempotent append — before any
balance mutation — and returns the designed non-error "already refunded"
outcome (`False` at the service, `errorId 0 / "already_refunded"` at the
route) with the committed database unchanged, so the balance is never
credited twice; (second conjunct) a refund that does credit implies the
REFUND row was absent before, was appended (exactly one new row, created
with the job's reference), and the balance was credited by the cost —
append strictly first, credit only if inserted. -/
theorem claim_C3 :
    (∀ (db : DB) (tid : String) (uid txid : Nat) (task : Task),
      db.tasks.find? (fun t => t.id == tid && t.user_id == uid) = some task →
      hasRef db.transactions tid "TASK_REFUND" = true →
      TaskService.refund_task db tid uid txid = .ok (false, db) ∧
      report_incorrect db tid uid txid
        = ({ errorId := 0, status := some "already_refunded" }, db)) ∧
    (∀ (db : DB) (tid : String) (uid txid : Nat) (db1 : DB),
      TaskService.refund_task db tid uid txid = .ok (true, db1) →
      hasRef db.transactions tid "TASK_REFUND" = false ∧
      ∃ task u, db.tasks.find? (fun t => t.id == tid && t.user_id == uid) = some task ∧
        0 < task.cost ∧
        db1.transactions
          = Transaction.create_refund txid uid task.cost 0 tid :: db.transactions ∧
        db.users.find? (fun v => v.id == uid) = some u ∧
        db1.users.find? (fun v => v.id == uid)
          = some { u with balance := u.balance + task.cost }) := by
  constructor
  · intro db tid uid txid task hfind href
    have h1 : TaskService.refund_task db tid uid txid = .ok (false, db) := by
      simp only [TaskService.refund_task, hfind]
      split
      · rfl
      · split
        · rfl
        · simp only [BillingService.refund, TransactionRepository.save_idempotent,
            TransactionRepository.save, Transaction.create_refund, href, if_true]
    exact ⟨h1, by simp [report_incorrect, h1]⟩
  · intro db tid uid txid db1 h
    rcases refund_task_ok h with ⟨hb, -⟩ | ⟨-, task, nb, hfind, -, hcost, href⟩
    · exact absurd hb (by simp)
    · obtain ⟨hno, hup⟩ := billing_refund_ok href
      have habs : |task.cost| = task.cost := abs_of_pos hcost
      obtain ⟨u, hfu, hnb, hdb1⟩ := update_balance_atomic_some hup
      rw [balanceRowMatch_of_nonneg (abs_nonneg task.cost)] at hfu
      rw [balanceRowMatch_of_nonneg (abs_nonneg task.cost)] at hdb1
      refine ⟨hno, task, u, hfind, hcost, ?_, hfu, ?_⟩
      · rw [hdb1]
      · rw [hdb1]
        refine (find?_map_cond hfu (by simpa using List.find?_some hfu)
          (fun x hx => by simpa using hx)
          (fun x hx => hx)).trans ?_
        rw [habs]

/-- Witness for C3: on `dbAfterRefund` (REFUND row already present) a
second refund returns the non-error already-refunded outcome and leaves
the database unchanged; on `dbInit0` a first refund of the READY task
`"t1"` (cost 10, account balance 0) credits the account once. -/
theorem claim_C3_witness :
    (TaskService.refund_task dbAfterRefund "t1" 1 9 = .ok (false, dbAfterRefund) ∧
      report_incorrect dbAfterRefund "t1" 1 9
        = ({ errorId := 0, status := some "already_refunded" }, dbAfterRefund)) ∧
    (hasRef dbInit0.transactions "t1" "TASK_REFUND" = false ∧
      ∃ task u,
        dbInit0.tasks.find? (fun t => t.id == "t1" && t.user_id == 1) = some task ∧
        0 < task.cost ∧
        dbRefunded.transactions
          = Transaction.create_refund 5 1 task.cost 0 "t1" :: dbInit0.transactions ∧
        dbInit0.users.find? (fun v => v.id == 1) = some u ∧
        dbRefunded.users.find? (fun v => v.id == 1)
          = some { u with balance := u.balance + task.cost }) :=
  ⟨claim_C3.1 dbAfterRefund "t1" 1 9
      { id := "t1", user_id := 1, status := .ready, token := some "tok", cost := 10,
        error_code := none, error_desc := none }
      (by decide) (by decide),
   claim_C3.2 dbInit0 "t1" 1 5 dbRefunded (by decide)⟩

/-- C8 counterexample: a refund of the PENDING, never-billed task of
`dbNotEligible` is a non-error no-op, but the route reports it as
`"already_refunded"` — byte-for-byte the same outcome as a genuinely
repeated refund on `dbAfterRefund` — not as a distinct "not eligible"
outcome, so `requestRefund` has two distinguishable outcomes, not three. -/
theorem claim_C8_counterexample :
    TaskService.refund_task dbNotEligible "t2" 1 0 = .ok (false, dbNotEligible) ∧
    (report_incorrect dbNotEligible "t2" 1 0).1
      = { errorId := 0, status := some "already_refunded" } ∧
    (report_incorrect dbNotEligible "t2" 1 0).1
      = (report_incorrect dbAfterRefund "t1" 1 9).1 := by decide

/-- C8 amended: `requestRefund` yields two distinguishable non-error
outcomes, `"success"` and `"already_refunded"`: for every job whose cost
is not positive or whose state is not READY the call is a no-op that never
errors, but it reports the same `"already_refunded"` outcome as a repeated
refund of an already-refunded job, rather than a distinct "not eligible". -/
theorem claim_C8_amended (db : DB) (tid : String) (uid txid : Nat) (task : Task)
    (hfind : db.tasks.find? (fun t => t.id == tid && t.user_id == uid) = some task)
    (hne : task.status ≠ .ready ∨ task.cost ≤ 0) :
    TaskService.refund_task db tid uid txid = .ok (false, db) ∧
    report_incorrect db tid uid txid
      = ({ errorId := 0, status := some "already_refunded" }, db) := by
  have h1 : TaskService.refund_task db tid uid txid = .ok (false, db) := by
    simp only [TaskService.refund_task, hfind]
    rcases hne with hs | hc
    · rw [if_pos (by simpa [bne_iff_ne] using hs)]
    · by_cases hs : (task.status != TaskStatus.ready) = true
      · rw [if_pos hs]
      · rw [if_neg hs, if_pos hc]
  exact ⟨h1, by simp [report_incorrect, h1]⟩

/-- Witness for the amended C8 at the PENDING zero-cost task of
`dbNotEligible`. -/
theorem claim_C8_amended_witness :
    TaskService.refund_task dbNotEligible "t2" 1 0 = .ok (false, dbNotEligible) ∧
    report_incorrect dbNotEligible "t2" 1 0
      = ({ errorId := 0, status := some "already_refunded" }, dbNotEligible) :=
  claim_C8_amended dbNotEligible "t2" 1 0
    { id := "t2", user_id := 1, status := .pending, token := none, cost := 0,
      error_code := none, error_desc := none }
    (by decide) (Or.inl (by decide))

/-- C7 counterexample: the Redis `ZREMRANGEBYSCORE key -inf window_start`
prune is inclusive — an entry whose timestamp equals `now - windowSeconds`
is dropped although it is not strictly older than `now - windowSeconds`.
At state `[0]`, `now = 60`, `maxRequests = 1`, `windowSeconds = 60` the
code drops the boundary entry and admits, while the claim's drop rule
(`is_allowed_spec`) retains it and rejects. -/
theorem claim_C7_counterexample :
    (RateLimiter.is_allowed [0] 60 1 60).1.1 = true ∧
    (RateLimiter.is_allowed_spec [0] 60 1 60).1.1 = false ∧
    ¬((0 : ℚ) < 60 - 60) := by
  refine ⟨?_, ?_, by norm_num⟩
  · norm_num [RateLimiter.is_allowed]
  · norm_num [RateLimiter.is_allowed_spec]

/-- C7 amended: on every check the gate drops exactly the recorded
timestamps at least `windowSeconds` old (every retained entry satisfies
`now - windowSeconds < t`), admits — recording `now` — iff the surviving
count is below `maxRequests`, and otherwise rejects with `retryAfter`
computed as `⌈oldest surviving + windowSeconds - now⌉`; in particular with
`maxRequests = 3`, `windowSeconds = 60`, three calls inside the window are
admitted, the fourth is rejected with `retryAfterSeconds > 0`, and once the
window has elapsed admission resumes. -/
theorem claim_C7_amended :
    (∀ (s : List ℚ) (now : ℚ) (m : Nat) (w : ℚ), 0 < w →
      ∀ t ∈ (RateLimiter.is_allowed s now m w).2, now - w < t) ∧
    (∀ (s : List ℚ) (now : ℚ) (m : Nat) (w : ℚ),
      ((RateLimiter.is_allowed s now m w).1.1 = true ↔
        (s.filter fun t => decide (now - w < t)).length < m)) ∧
    (∀ (s : List ℚ) (now : ℚ) (m : Nat) (w : ℚ),
      (RateLimiter.is_allowed s now m w).1.1 = true →
      (RateLimiter.is_allowed s now m w).2
        = now :: s.filter fun t => decide (now - w < t)) ∧
    (∀ (s : List ℚ) (now oldest : ℚ) (m : Nat) (w : ℚ),
      (s.filter fun t => decide (now - w < t)).min? = some oldest →
      ¬((s.filter fun t => decide (now - w < t)).length < m) →
      (RateLimiter.is_allowed s now m w).1.2.2 = ⌈oldest + w - now⌉) ∧
    (∀ t1 t2 t3 t4 t5 : ℚ, t1 ≤ t2 → t2 ≤ t3 → t3 ≤ t4 → t4 < t1 + 60 →
      t3 + 60 ≤ t5 →
      gateAllowed [] t1 = true ∧
      gateAllowed (gateNext [] t1) t2 = true ∧
      gateAllowed (gateNext (gateNext [] t1) t2) t3 = true ∧
      gateAllowed (gateNext (gateNext (gateNext [] t1) t2) t3) t4 = false ∧
      0 < gateRetry (gateNext (gateNext (gateNext [] t1) t2) t3) t4 ∧
      gateAllowed (gateNext (gateNext (gateNext (gateNext [] t1) t2) t3) t4) t5
        = true) := by
  refine ⟨?_, ?_, ?_, ?_, ?_⟩
  · intro s now m w hw t ht
    by_cases hc : ((s.filter fun x => decide (now - w < x)).length < m)
    · simp only [RateLimiter.is_allowed, if_pos hc] at ht
      rcases List.mem_cons.mp ht with rfl | hmem
      · linarith
      · exact decide_eq_true_eq.mp (List.mem_filter.mp hmem).2
    · simp only [RateLimiter.is_allowed, if_neg hc] at ht
      exact decide_eq_true_eq.mp (List.mem_filter.mp ht).2
  · intro s now m w
    by_cases hc : ((s.filter fun x => decide (now - w < x)).length < m)
    · simp [RateLimiter.is_allowed, hc]
    · simp [RateLimiter.is_allowed, hc]
  · intro s now m w h
    by_cases hc : ((s.filter fun x => decide (now - w < x)).length < m)
    · simp [RateLimiter.is_allowed, hc]
    · simp [RateLimiter.is_allowed, hc] at h
  · intro s now oldest m w hmin hc
    simp [RateLimiter.is_allowed, hc, hmin]
  · intro t1 t2 t3 t4 t5 h12 h23 h34 h4w h5w
    have c21 : decide (t2 - 60 < t1) = true := by
      rw [decide_eq_true_eq]
      linarith
    have c31 : decide (t3 - 60 < t1) = true := by
      rw [decide_eq_true_eq]
      linarith
    have c32 : decide (t3 - 60 < t2) = true := by
      rw [decide_eq_true_eq]
      linarith
    have c41 : decide (t4 - 60 < t1) = true := by
      rw [decide_eq_true_eq]
      linarith
    have c42 : decide (t4 - 60 < t2) = true := by
      rw [decide_eq_true_eq]
      linarith
    have c43 : decide (t4 - 60 < t3) = true := by
      rw [decide_eq_true_eq]
      linarith
    have d51 : decide (t5 - 60 < t1) = false := by
      rw [decide_eq_false_iff_not]
      intro hcon
      linarith
    have d52 : decide (t5 - 60 < t2) = false := by
      rw [decide_eq_false_iff_not]
      intro hcon
      linarith
    have d53 : decide (t5 - 60 < t3) = false := by
      rw [decide_eq_false_iff_not]
      intro hcon
      linarith
    have hs1 : gateNext [] t1 = [t1] := by
      simp [gateNext, RateLimiter.is_allowed]
    have hs2 : gateNext [t1] t2 = [t2, t1] := by
      simp [gateNext, RateLimiter.is_allowed, c21]
    have hs3 : gateNext [t2, t1] t3 = [t3, t2, t1] := by
      simp [gateNext, RateLimiter.is_allowed, c31, c32]
    have hs4 : gateNext [t3, t2, t1] t4 = [t3, t2, t1] := by
      simp [gateNext, RateLimiter.is_allowed, c41, c42, c43]
    have hmin : ([t3, t2, t1] : List ℚ).min? = some t1 := by
      simp only [List.min?, List.foldl, min_eq_right h23, min_eq_right h12]
    refine ⟨?_, ?_, ?_, ?_, ?_, ?_⟩
    · simp [gateAllowed, RateLimiter.is_allowed]
    · rw [hs1]
      simp [gateAllowed, RateLimiter.is_allowed, c21]
    · rw [hs1, hs2]
      simp [gateAllowed, RateLimiter.is_allowed, c31, c32]
    · rw [hs1, hs2, hs3]
      simp [gateAllowed, RateLimiter.is_allowed, c41, c42, c43]
    · rw [hs1, hs2, hs3]
      have : gateRetry [t3, t2, t1] t4 = ⌈t1 + 60 - t4⌉ := by
        simp [gateRetry, RateLimiter.is_allowed, c41, c42, c43, hmin]
      rw [this]
      exact Int.ceil_pos.mpr (by linarith)
    · rw [hs1, hs2, hs3, hs4]
      simp [gateAllowed, RateLimiter.is_allowed, d51, d52, d53]

/-- Witness for the amended C7 at call times 0, 1, 2, 3 and 70. -/
theorem claim_C7_amended_witness :
    (∀ t ∈ (RateLimiter.is_allowed [0] 60 1 60).2, (60 : ℚ) - 60 < t) ∧
    (gateAllowed [] 0 = true ∧
      gateAllowed (gateNext [] 0) 1 = true ∧
      gateAllowed (gateNext (gateNext [] 0) 1) 2 = true ∧
      gateAllowed (gateNext (gateNext (gateNext [] 0) 1) 2) 3 = false ∧
      0 < gateRetry (gateNext (gateNext (gateNext [] 0) 1) 2) 3 ∧
      gateAllowed (gateNext (gateNext (gateNext (gateNext [] 0) 1) 2) 3) 70
        = true) :=
  ⟨claim_C7_amended.1 [0] 60 1 60 (by norm_num),
   claim_C7_amended.2.2.2.2 0 1 2 3 70 (by norm_num) (by norm_num) (by norm_num)
     (by norm_num) (by norm_num)⟩

end CaptchaSolver
